import Mathlib

/-!
Verification of the document-capture core (`capture_engine.cpp`,
`document_detector.cpp`, `perspective_corrector.cpp`, `quality_assessor.cpp`,
`image_enhancer.cpp`) against its natural-language specification.

Pixel coordinates and scores are embedded as exact rationals (`ℚ`);
Euclidean lengths, which the C++ obtains from `std::sqrt` / `cv::norm`
on floats, are idealised as real numbers via `Real.sqrt`.  Image-primitive
calls (OpenCV conversions, contour extraction, Laplacian statistics,
warping) are external collaborators per the spec and enter the model as
oracle inputs; every piece of control flow and arithmetic written in the
repository itself is translated directly.
-/

namespace DocCapture

/-- A planar point with exact coordinates, modelling `cv::Point2f`. -/
abbrev Point := ℚ × ℚ

/-- Squared Euclidean distance between two points. -/
def dist2 (p q : Point) : ℚ := (p.1 - q.1) ^ 2 + (p.2 - q.2) ^ 2

/-- Euclidean distance, modelling `cv::norm(p - q)` / the explicit
`std::sqrt(pow(..., 2) + pow(..., 2))` computations in the sources. -/
noncomputable def ptDist (p q : Point) : ℝ := Real.sqrt ((dist2 p q : ℚ) : ℝ)

/-- Centroid of a corner list, modelling `center = (Σ pt) * 0.25f`
in both `orderCorners` implementations (always applied to 4 points). -/
def centroid (cs : List Point) : Point :=
  ((cs.map Prod.fst).sum / 4, (cs.map Prod.snd).sum / 4)

/-- Quadrant classification relative to the centroid, the shared
`if`-chain of `DocumentDetector::orderCorners` and
`PerspectiveCorrector::orderCorners`: TL = 0, TR = 1, BR = 2, BL = 3. -/
def quadrant (c p : Point) : Fin 4 :=
  if p.1 < c.1 ∧ p.2 < c.2 then 0
  else if c.1 ≤ p.1 ∧ p.2 < c.2 then 1
  else if c.1 ≤ p.1 ∧ c.2 ≤ p.2 then 2
  else 3

namespace DocumentDetector

/-- `DocumentDetector::orderCorners` (document_detector.cpp:160-187):
slots start as default `cv::Point2f()` = (0,0); each input point is
written into its quadrant's slot unconditionally (a later point in the
same quadrant overwrites an earlier one), and the slot array is returned
with no fallback check. -/
def orderCorners (cs : List Point) : List Point :=
  if cs.length ≠ 4 then cs
  else
    let c := centroid cs
    let ord := cs.foldl (fun ord p => Function.update ord (quadrant c p) p)
      (fun _ => ((0 : ℚ), (0 : ℚ)))
    [ord 0, ord 1, ord 2, ord 3]

end DocumentDetector

namespace PerspectiveCorrector

/-- One step of the assignment loop in `PerspectiveCorrector::orderCorners`:
a point is stored only if its quadrant's slot is still unassigned
(first-seen wins). -/
def assignStep (c : Point) (st : (Fin 4 → Point) × (Fin 4 → Bool)) (p : Point) :
    (Fin 4 → Point) × (Fin 4 → Bool) :=
  let idx := quadrant c p
  if st.2 idx = false then (Function.update st.1 idx p, Function.update st.2 idx true)
  else st

/-- `PerspectiveCorrector::orderCorners` (perspective_corrector.cpp:69-116):
first-seen-wins slot assignment, then a fallback returning the original
sequence when not all four slots were assigned. -/
def orderCorners (cs : List Point) : List Point :=
  if cs.length ≠ 4 then cs
  else
    let c := centroid cs
    let st := cs.foldl (assignStep c) (fun _ => ((0 : ℚ), (0 : ℚ)), fun _ => false)
    if st.2 0 = true ∧ st.2 1 = true ∧ st.2 2 = true ∧ st.2 3 = true then
      [st.1 0, st.1 1, st.1 2, st.1 3]
    else cs

end PerspectiveCorrector

set_option maxRecDepth 4000 in
/-- A function `Fin 4 → Fin 4` that collides on two indices misses some
value (finite pigeonhole, used for the quadrant classification). -/
theorem fin4_collision_misses {f : Fin 4 → Fin 4}
    (h : ∃ i j : Fin 4, i ≠ j ∧ f i = f j) : ∃ k : Fin 4, ∀ i, f i ≠ k := by
  revert h
  revert f
  decide

/-- After the assignment fold, a slot is marked assigned only if it was
assigned at the start or some processed point falls in that quadrant. -/
theorem assign_foldl_mem (c : Point) (k : Fin 4) :
    ∀ (cs : List Point) (st : (Fin 4 → Point) × (Fin 4 → Bool)),
      (cs.foldl (PerspectiveCorrector.assignStep c) st).2 k = true →
      st.2 k = true ∨ ∃ p ∈ cs, quadrant c p = k := by
  intro cs
  induction cs with
  | nil => intro st h; exact Or.inl h
  | cons p cs ih =>
    intro st h
    rw [List.foldl_cons] at h
    rcases ih (PerspectiveCorrector.assignStep c st p) h with h1 | h1
    · unfold PerspectiveCorrector.assignStep at h1
      by_cases hc : st.2 (quadrant c p) = false
      · rw [if_pos hc] at h1
        dsimp only at h1
        by_cases hk : quadrant c p = k
        · exact Or.inr ⟨p, List.mem_cons_self p cs, hk⟩
        · rw [Function.update_noteq (fun hkk => hk hkk.symm)] at h1
          exact Or.inl h1
      · rw [if_neg hc] at h1
        exact Or.inl h1
    · rcases h1 with ⟨q, hq, hqk⟩
      exact Or.inr ⟨q, List.mem_cons_of_mem p hq, hqk⟩

/-- Four collinear points: a degenerate input on which the
quadrant classification necessarily collides. -/
def collinearInput : List Point := [(0, 0), (1, 0), (2, 0), (3, 0)]

/-- C2, counterexample.  The claim asserts that BOTH `orderCorners`
implementations return the original sequence unchanged whenever two input
points classify into the same quadrant.  On the collinear input
`[(0,0),(1,0),(2,0),(3,0)]` the classification does collide, yet
`DocumentDetector::orderCorners` returns `[(0,0),(0,0),(3,0),(1,0)]`
(overwritten slots, defaults in unfilled ones), not the original input. -/
theorem orderCorners_detector_no_fallback_cex :
    (∃ i j : Fin 4, i ≠ j ∧
      quadrant (centroid collinearInput) (collinearInput.getD (i : ℕ) (0, 0)) =
        quadrant (centroid collinearInput) (collinearInput.getD (j : ℕ) (0, 0))) ∧
    DocumentDetector.orderCorners collinearInput ≠ collinearInput := by
  refine ⟨⟨0, 1, by decide, ?_⟩, ?_⟩
  · norm_num [quadrant, centroid, collinearInput]
  · norm_num [DocumentDetector.orderCorners, centroid, quadrant, collinearInput,
      Function.update]

/-- C2, amended.  For every 4-point input on which the
quadrant-relative-to-centroid classification maps two points to the same
quadrant, `PerspectiveCorrector::orderCorners` (the only implementation
with the fallback) returns the original unordered input sequence
unchanged, so callers can detect failure. -/
theorem orderCorners_corrector_fallback (cs : List Point) (hlen : cs.length = 4)
    (hcol : ∃ i j : Fin 4, i ≠ j ∧
      quadrant (centroid cs) (cs.getD (i : ℕ) (0, 0)) =
        quadrant (centroid cs) (cs.getD (j : ℕ) (0, 0))) :
    PerspectiveCorrector.orderCorners cs = cs := by
  obtain ⟨k, hk⟩ :=
    fin4_collision_misses (f := fun i => quadrant (centroid cs) (cs.getD (i : ℕ) (0, 0))) hcol
  have hnotmem : ∀ p ∈ cs, quadrant (centroid cs) p ≠ k := by
    intro p hp
    obtain ⟨n, hn⟩ := List.get_of_mem hp
    have hlt : (n : ℕ) < 4 := hlen ▸ n.isLt
    have hd : cs.getD ((⟨(n : ℕ), hlt⟩ : Fin 4) : ℕ) (0, 0) = p := by
      simp only [Fin.val_mk]
      rw [List.getD_eq_getElem cs (0, 0) n.isLt]
      simpa using hn
    have hkn := hk ⟨(n : ℕ), hlt⟩
    rw [hd] at hkn
    exact hkn
  unfold PerspectiveCorrector.orderCorners
  rw [if_neg (by simp [hlen])]
  have hfold : (cs.foldl (PerspectiveCorrector.assignStep (centroid cs))
      (fun _ => ((0 : ℚ), (0 : ℚ)), fun _ => false)).2 k ≠ true := by
    intro h
    rcases assign_foldl_mem (centroid cs) k cs _ h with h1 | h1
    · simp at h1
    · obtain ⟨p, hp, hq⟩ := h1
      exact hnotmem p hp hq
  rw [if_neg]
  intro hall
  apply hfold
  fin_cases k
  · exact hall.1
  · exact hall.2.1
  · exact hall.2.2.1
  · exact hall.2.2.2

/-- C2, witness for the amended theorem at the collinear input. -/
theorem orderCorners_corrector_fallback_witness :
    PerspectiveCorrector.orderCorners collinearInput = collinearInput :=
  orderCorners_corrector_fallback collinearInput (by decide)
    ⟨0, 1, by decide, by norm_num [quadrant, centroid, collinearInput]⟩

/-- Absolute shoelace area of a 4-point contour, modelling
`cv::contourArea` applied to the corner vector. -/
def quadArea (p0 p1 p2 p3 : Point) : ℚ :=
  |p0.1 * p1.2 - p1.1 * p0.2 + (p1.1 * p2.2 - p2.1 * p1.2)
    + (p2.1 * p3.2 - p3.1 * p2.2) + (p3.1 * p0.2 - p0.1 * p3.2)| / 2

/-- Minimum pairwise distance of 4 corners, the double loop of
`DocumentDetector::calculateConfidence` (i < j over 4 points). -/
noncomputable def minPairDist (p0 p1 p2 p3 : Point) : ℝ :=
  min (ptDist p0 p1) (min (ptDist p0 p2) (min (ptDist p0 p3)
    (min (ptDist p1 p2) (min (ptDist p1 p3) (ptDist p2 p3)))))

/-- `DocumentDetector::calculateConfidence` (document_detector.cpp:189-220):
0 unless exactly 4 corners; otherwise
`areaScore * 0.6 + distScore * 0.4` with the area-ratio branches and the
min-pairwise-distance separation score exactly as in the source. -/
noncomputable def DocumentDetector.calculateConfidence (cs : List Point) (w h : ℚ) : ℝ :=
  if cs.length ≠ 4 then 0
  else
    let p0 := cs.getD 0 (0, 0)
    let p1 := cs.getD 1 (0, 0)
    let p2 := cs.getD 2 (0, 0)
    let p3 := cs.getD 3 (0, 0)
    let imageArea : ℚ := w * h
    let areaRat : ℚ := quadArea p0 p1 p2 p3 / imageArea
    let areaScore : ℚ :=
      if 0.2 ≤ areaRat ∧ areaRat ≤ 0.8 then 1 - |areaRat - 0.5|
      else if 0.1 < areaRat then 0.5
      else 0
    let minDist : ℝ := minPairDist p0 p1 p2 p3
    let minExpectedDist : ℝ := Real.sqrt ((imageArea : ℚ) : ℝ) * 0.1
    let distScore : ℝ := min 1 (minDist / minExpectedDist)
    (areaScore : ℝ) * 0.6 + distScore * 0.4

/-- The confidence formula exactly as claim C3 states it: area-fit-score
is 0 for every ratio outside [0.2,0.8] except the band (0.1,0.2), in
particular 0 for ratio > 0.8. -/
noncomputable def specConfidence (cs : List Point) (w h : ℚ) : ℝ :=
  let p0 := cs.getD 0 (0, 0)
  let p1 := cs.getD 1 (0, 0)
  let p2 := cs.getD 2 (0, 0)
  let p3 := cs.getD 3 (0, 0)
  let ratio : ℚ := quadArea p0 p1 p2 p3 / (w * h)
  let fit : ℚ :=
    if 0.2 ≤ ratio ∧ ratio ≤ 0.8 then 1 - |ratio - 0.5|
    else if 0.1 < ratio ∧ ratio < 0.2 then 0.5
    else 0
  let sep : ℝ := min 1 (minPairDist p0 p1 p2 p3 / (0.1 * Real.sqrt ((w * h : ℚ) : ℝ)))
  0.6 * (fit : ℝ) + 0.4 * sep

/-- The confidence formula as amended: area-fit-score is 0.5 for every
ratio > 0.1 lying outside [0.2,0.8] (so also for ratio > 0.8), and 0 only
for ratio ≤ 0.1. -/
noncomputable def specConfidenceAmended (cs : List Point) (w h : ℚ) : ℝ :=
  let p0 := cs.getD 0 (0, 0)
  let p1 := cs.getD 1 (0, 0)
  let p2 := cs.getD 2 (0, 0)
  let p3 := cs.getD 3 (0, 0)
  let ratio : ℚ := quadArea p0 p1 p2 p3 / (w * h)
  let fit : ℚ :=
    if 0.2 ≤ ratio ∧ ratio ≤ 0.8 then 1 - |ratio - 0.5|
    else if 0.1 < ratio then 0.5
    else 0
  let sep : ℝ := min 1 (minPairDist p0 p1 p2 p3 / (0.1 * Real.sqrt ((w * h : ℚ) : ℝ)))
  0.6 * (fit : ℝ) + 0.4 * sep

/-- A quadrilateral covering 90% of a 10x10 frame: area ratio 0.9 > 0.8. -/
def cexCorners : List Point := [(0, 0), (10, 0), (10, 9), (0, 9)]

/-- C3, counterexample.  At a quadrilateral whose area ratio is 0.9 the
code scores the area term 0.5 (the `else if (areaRatio > 0.1)` branch
also captures ratios above 0.8) while the claim's formula scores it 0,
so the computed confidence differs from the claimed formula. -/
theorem calculateConfidence_area_score_cex :
    DocumentDetector.calculateConfidence cexCorners 10 10 ≠
      specConfidence cexCorners 10 10 := by
  unfold DocumentDetector.calculateConfidence specConfidence
  norm_num [cexCorners, quadArea]
  rw [mul_comm (Real.sqrt (100 : ℝ)) (1 / 10 : ℝ)]
  intro h
  linarith [h]

/-- C3, amended.  For every 4-corner quadrilateral and frame size the
detection confidence equals 0.6 x area-fit + 0.4 x corner-separation,
where the area-fit-score is 1 − |ratio − 0.5| on [0.2,0.8], 0.5 for any
other ratio > 0.1 (including ratio > 0.8), and 0 for ratio ≤ 0.1. -/
theorem calculateConfidence_eq_spec_amended (cs : List Point) (w h : ℚ)
    (hlen : cs.length = 4) :
    DocumentDetector.calculateConfidence cs w h = specConfidenceAmended cs w h := by
  unfold DocumentDetector.calculateConfidence specConfidenceAmended
  rw [if_neg (by simp [hlen])]
  dsimp only
  rw [mul_comm (Real.sqrt ((w * h : ℚ) : ℝ)) (0.1 : ℝ)]
  ring

/-- C3, witness for the amended theorem at the 90%-coverage input. -/
theorem calculateConfidence_eq_spec_amended_witness :
    DocumentDetector.calculateConfidence cexCorners 10 10 =
      specConfidenceAmended cexCorners 10 10 :=
  calculateConfidence_eq_spec_amended cexCorners 10 10 (by decide)

namespace QualityAssessor

/-- `QualityAssessor::MAX_HISTORY` (quality_assessor.hpp:86). -/
def MAX_HISTORY : ℕ := 5

/-- History update performed by `QualityAssessor::checkStability`
(quality_assessor.cpp:353-390): non-4-point input leaves the deque
untouched; during warm-up (< 3 samples) the corners are pushed with no
eviction; otherwise push_back followed by pop_front beyond MAX_HISTORY. -/
def stabStep (hist : List (List Point)) (cs : List Point) : List (List Point) :=
  if cs.length ≠ 4 then hist
  else if hist.length < 3 then hist ++ [cs]
  else
    let h2 := hist ++ [cs]
    if MAX_HISTORY < h2.length then h2.tail else h2

/-- Score returned by `QualityAssessor::checkStability`: 0 for non-4-point
input or during warm-up; otherwise total displacement against every
4-point history entry, averaged over 4 comparisons per entry, mapped to
`max 0 (1 - avg/20)`. -/
noncomputable def stabScore (hist : List (List Point)) (cs : List Point) : ℝ :=
  if cs.length ≠ 4 then 0
  else if hist.length < 3 then 0
  else
    let valid := hist.filter (fun prev => prev.length = 4)
    let total : ℝ := (valid.map (fun prev =>
      ∑ i : Fin 4, ptDist (cs.getD (i : ℕ) (0, 0)) (prev.getD (i : ℕ) (0, 0)))).sum
    let comparisons : ℕ := 4 * valid.length
    let avgDisplacement : ℝ := if 0 < comparisons then total / (comparisons : ℝ) else 0
    max 0 (1 - avgDisplacement / 20)

/-- An externally visible operation on the assessor's history:
a `checkStability` call or a `reset`. -/
inductive AssessorOp where
  | check (cs : List Point)
  | reset

/-- Effect of one operation on the corner history (`reset` clears it). -/
def applyOp (hist : List (List Point)) : AssessorOp → List (List Point)
  | .check cs => stabStep hist cs
  | .reset => []

/-- History after a sequence of operations on a fresh assessor. -/
def runOps (ops : List AssessorOp) : List (List Point) := ops.foldl applyOp []

/-- History after a sequence of `checkStability` calls on a fresh assessor. -/
def runHist (inputs : List (List Point)) : List (List Point) := inputs.foldl stabStep []

/-- One `checkStability` call keeps the history within MAX_HISTORY. -/
theorem stabStep_length_le (hist : List (List Point)) (cs : List Point)
    (h : hist.length ≤ 5) : (stabStep hist cs).length ≤ 5 := by
  unfold stabStep
  split
  · exact h
  · split
    · simp only [List.length_append, List.length_singleton]
      omega
    · dsimp only
      split
      · simp only [List.length_tail, List.length_append, List.length_singleton]
        omega
      · rename_i hle
        simp only [List.length_append, List.length_singleton] at *
        unfold MAX_HISTORY at hle
        omega

/-- Generalised bound for any operation sequence. -/
theorem foldl_applyOp_length_le (ops : List AssessorOp) :
    ∀ hist : List (List Point), hist.length ≤ 5 →
      (ops.foldl applyOp hist).length ≤ 5 := by
  induction ops with
  | nil => intro hist h; exact h
  | cons op ops ih =>
    intro hist h
    rw [List.foldl_cons]
    cases op with
    | check cs => exact ih _ (stabStep_length_le hist cs h)
    | reset => exact ih _ (by simp [applyOp])

/-- Every element of the history after a step was already present or is
the newly pushed corner set. -/
theorem stabStep_mem (hist : List (List Point)) (cs p : List Point)
    (hp : p ∈ stabStep hist cs) : p ∈ hist ∨ p = cs := by
  unfold stabStep at hp
  split at hp
  · exact Or.inl hp
  · split at hp
    · rcases List.mem_append.mp hp with h | h
      · exact Or.inl h
      · exact Or.inr (List.mem_singleton.mp h)
    · dsimp only at hp
      split at hp
      · have : p ∈ hist ++ [cs] := by
          cases hl : hist ++ [cs] with
          | nil => rw [hl] at hp; cases hp
          | cons a l => rw [hl] at hp; exact List.mem_cons_of_mem a hp
        rcases List.mem_append.mp this with h | h
        · exact Or.inl h
        · exact Or.inr (List.mem_singleton.mp h)
      · rcases List.mem_append.mp hp with h | h
        · exact Or.inl h
        · exact Or.inr (List.mem_singleton.mp h)

/-- Every history entry produced by a run of 4-point inputs has 4 points. -/
theorem runHist_entries_length (inputs : List (List Point))
    (h4 : ∀ c ∈ inputs, c.length = 4) :
    ∀ p ∈ runHist inputs, p.length = 4 := by
  suffices h : ∀ (l : List (List Point)) (hist : List (List Point)),
      (∀ p ∈ hist, p.length = 4) → (∀ c ∈ l, c.length = 4) →
      ∀ p ∈ l.foldl stabStep hist, p.length = 4 by
    exact h inputs [] (by intro p hp; cases hp) h4
  intro l
  induction l with
  | nil => intro hist hh _ p hp; exact hh p hp
  | cons c l ih =>
    intro hist hh hc p hp
    rw [List.foldl_cons] at hp
    refine ih (stabStep hist c) ?_ (fun x hx => hc x (List.mem_cons_of_mem c hx)) p hp
    intro q hq
    rcases stabStep_mem hist c q hq with h | h
    · exact hh q h
    · rw [h]; exact hc c (List.mem_cons_self c l)

/-- Length of the history after running 4-point inputs:
it grows by one per call, saturating at 5. -/
theorem runHist_length (inputs : List (List Point))
    (h4 : ∀ c ∈ inputs, c.length = 4) :
    (runHist inputs).length = min inputs.length 5 := by
  suffices h : ∀ (l : List (List Point)) (hist : List (List Point)),
      (∀ c ∈ l, c.length = 4) → hist.length ≤ 5 →
      (l.foldl stabStep hist).length = min (hist.length + l.length) 5 by
    simpa [runHist] using h inputs [] h4 (by simp)
  intro l
  induction l with
  | nil =>
    intro hist _ hle
    simp only [List.foldl_nil, List.length_nil]
    omega
  | cons c l ih =>
    intro hist hc hle
    rw [List.foldl_cons]
    have hc4 : c.length = 4 := hc c (List.mem_cons_self c l)
    have hstep : (stabStep hist c).length = min (hist.length + 1) 5 := by
      unfold stabStep
      rw [if_neg (by omega)]
      split
      · simp only [List.length_append, List.length_singleton]
        omega
      · dsimp only
        split
        · rename_i hgt
          simp only [List.length_append, List.length_singleton] at hgt ⊢
          unfold MAX_HISTORY at hgt
          simp only [List.length_tail, List.length_append, List.length_singleton]
          omega
        · rename_i hgt
          simp only [List.length_append, List.length_singleton] at hgt ⊢
          unfold MAX_HISTORY at hgt
          omega
    rw [ih (stabStep hist c) (fun x hx => hc x (List.mem_cons_of_mem c hx))
      (by rw [hstep]; omega), hstep]
    simp only [List.length_cons]
    omega

/-- The spec-side displacement average of claim C6: mean per-corner
displacement of the current corners against every retained historical
corner set (4 comparisons per retained set). -/
noncomputable def specAvgDisp (hist : List (List Point)) (cs : List Point) : ℝ :=
  (hist.map (fun prev =>
    ∑ i : Fin 4, ptDist (cs.getD (i : ℕ) (0, 0)) (prev.getD (i : ℕ) (0, 0)))).sum /
    ((4 * hist.length : ℕ) : ℝ)

end QualityAssessor

/-- C5.  The corner history of a fresh assessor never exceeds 5 entries
under any sequence of `checkStability` and `reset` calls, and eviction is
FIFO: after 6 `checkStability` calls with 4-point inputs the history is
exactly the last 5 inputs, so a 1st input distinct from the others is no
longer retained. -/
theorem corner_history_bounded_fifo :
    (∀ ops : List QualityAssessor.AssessorOp,
      (QualityAssessor.runOps ops).length ≤ 5) ∧
    (∀ c1 c2 c3 c4 c5 c6 : List Point,
      (∀ c ∈ [c1, c2, c3, c4, c5, c6], c.length = 4) →
      QualityAssessor.runHist [c1, c2, c3, c4, c5, c6] = [c2, c3, c4, c5, c6] ∧
      (c1 ∉ ([c2, c3, c4, c5, c6] : List (List Point)) →
        c1 ∉ QualityAssessor.runHist [c1, c2, c3, c4, c5, c6])) := by
  constructor
  · intro ops
    exact QualityAssessor.foldl_applyOp_length_le ops [] (by simp)
  · intro c1 c2 c3 c4 c5 c6 h4
    have h1 := h4 c1 (by simp)
    have h2 := h4 c2 (by simp)
    have h3 := h4 c3 (by simp)
    have h4' := h4 c4 (by simp)
    have h5 := h4 c5 (by simp)
    have h6 := h4 c6 (by simp)
    have hrun : QualityAssessor.runHist [c1, c2, c3, c4, c5, c6] = [c2, c3, c4, c5, c6] := by
      simp [QualityAssessor.runHist, QualityAssessor.stabStep, QualityAssessor.MAX_HISTORY,
        h1, h2, h3, h4', h5, h6]
    refine ⟨hrun, ?_⟩
    intro hnot
    rw [hrun]
    exact hnot

/-- C5, witness: six concrete distinct 4-point inputs on a fresh
assessor, plus a bound instance for a mixed operation sequence. -/
theorem corner_history_bounded_fifo_witness :
    (QualityAssessor.runOps [QualityAssessor.AssessorOp.check
        [(0, 0), (1, 0), (1, 1), (0, 1)], QualityAssessor.AssessorOp.reset]).length ≤ 5 ∧
    QualityAssessor.runHist
      [[(1, 0), (1, 1), (1, 2), (1, 3)], [(2, 0), (2, 1), (2, 2), (2, 3)],
       [(3, 0), (3, 1), (3, 2), (3, 3)], [(4, 0), (4, 1), (4, 2), (4, 3)],
       [(5, 0), (5, 1), (5, 2), (5, 3)], [(6, 0), (6, 1), (6, 2), (6, 3)]] =
      [[(2, 0), (2, 1), (2, 2), (2, 3)], [(3, 0), (3, 1), (3, 2), (3, 3)],
       [(4, 0), (4, 1), (4, 2), (4, 3)], [(5, 0), (5, 1), (5, 2), (5, 3)],
       [(6, 0), (6, 1), (6, 2), (6, 3)]] ∧
    [((1 : ℚ), (0 : ℚ)), (1, 1), (1, 2), (1, 3)] ∉ QualityAssessor.runHist
      [[(1, 0), (1, 1), (1, 2), (1, 3)], [(2, 0), (2, 1), (2, 2), (2, 3)],
       [(3, 0), (3, 1), (3, 2), (3, 3)], [(4, 0), (4, 1), (4, 2), (4, 3)],
       [(5, 0), (5, 1), (5, 2), (5, 3)], [(6, 0), (6, 1), (6, 2), (6, 3)]] := by
  refine ⟨corner_history_bounded_fifo.1 _, ?_, ?_⟩
  · exact (corner_history_bounded_fifo.2 _ _ _ _ _ _ (by decide)).1
  · exact (corner_history_bounded_fifo.2 _ _ _ _ _ _ (by decide)).2 (by decide)

/-- C6.  After a reset, `checkStability` on 4-point inputs returns 0 on
each of the first 2 calls; from the 3rd call onward it returns a value in
[0,1]; and once past warm-up (3 retained samples, i.e. from the 4th call
on) the value equals `max 0 (1 − avgDisplacement/20)` where
avgDisplacement is the mean per-corner displacement of the current
corners against every retained historical corner set. -/
theorem checkStability_warmup_and_score (inputs : List (List Point))
    (h4 : ∀ c ∈ inputs, c.length = 4) (i : ℕ) (hi : i < inputs.length) :
    (i < 2 →
      QualityAssessor.stabScore (QualityAssessor.runHist (inputs.take i))
        (inputs.get ⟨i, hi⟩) = 0) ∧
    (2 ≤ i →
      0 ≤ QualityAssessor.stabScore (QualityAssessor.runHist (inputs.take i))
        (inputs.get ⟨i, hi⟩) ∧
      QualityAssessor.stabScore (QualityAssessor.runHist (inputs.take i))
        (inputs.get ⟨i, hi⟩) ≤ 1) ∧
    (3 ≤ i →
      QualityAssessor.stabScore (QualityAssessor.runHist (inputs.take i))
        (inputs.get ⟨i, hi⟩) =
      max 0 (1 - QualityAssessor.specAvgDisp (QualityAssessor.runHist (inputs.take i))
        (inputs.get ⟨i, hi⟩) / 20)) := by
  set hist := QualityAssessor.runHist (inputs.take i) with hhist
  set cur := inputs.get ⟨i, hi⟩ with hcur
  have htake4 : ∀ c ∈ inputs.take i, c.length = 4 :=
    fun c hc => h4 c (List.mem_of_mem_take hc)
  have hcur4 : cur.length = 4 := h4 cur (inputs.get_mem i hi)
  have htlen : (inputs.take i).length = i := by
    rw [List.length_take]
    omega
  have hlen : hist.length = min i 5 := by
    rw [hhist, QualityAssessor.runHist_length _ htake4, htlen]
  have hvalid : hist.filter (fun prev => prev.length = 4) = hist := by
    rw [List.filter_eq_self]
    intro p hp
    simpa using QualityAssessor.runHist_entries_length _ htake4 p (hhist ▸ hp)
  refine ⟨?_, ?_, ?_⟩
  · intro hilt
    unfold QualityAssessor.stabScore
    rw [if_neg (by omega), if_pos (by omega)]
  · intro hige
    by_cases hwarm : hist.length < 3
    · unfold QualityAssessor.stabScore
      rw [if_neg (by omega), if_pos hwarm]
      norm_num
    · have hpos : 0 < 4 * hist.length := by omega
      unfold QualityAssessor.stabScore
      rw [if_neg (by omega), if_neg hwarm]
      dsimp only
      rw [hvalid, if_pos hpos]
      have htot : 0 ≤ (hist.map (fun prev =>
          ∑ j : Fin 4, ptDist (cur.getD (j : ℕ) (0, 0)) (prev.getD (j : ℕ) (0, 0)))).sum := by
        apply List.sum_nonneg
        intro x hx
        simp only [List.mem_map] at hx
        obtain ⟨prev, _, rfl⟩ := hx
        exact Finset.sum_nonneg fun j _ => Real.sqrt_nonneg _
      have havg : (0 : ℝ) ≤ (hist.map (fun prev =>
          ∑ j : Fin 4, ptDist (cur.getD (j : ℕ) (0, 0)) (prev.getD (j : ℕ) (0, 0)))).sum /
          ((4 * hist.length : ℕ) : ℝ) := div_nonneg htot (by positivity)
      constructor
      · exact le_max_left _ _
      · apply max_le (by norm_num)
        linarith
  · intro hige
    have hw : ¬ hist.length < 3 := by omega
    have hpos : 0 < 4 * hist.length := by omega
    unfold QualityAssessor.stabScore QualityAssessor.specAvgDisp
    rw [if_neg (by omega), if_neg hw]
    dsimp only
    rw [hvalid, if_pos hpos]

/-- C6, witness: four identical 4-point inputs; the statement of the
theorem instantiated at the 4th call (index 3). -/
theorem checkStability_warmup_and_score_witness :
    (3 < 2 →
      QualityAssessor.stabScore (QualityAssessor.runHist
        (([[((0 : ℚ), (0 : ℚ)), (10, 0), (10, 10), (0, 10)],
           [(0, 0), (10, 0), (10, 10), (0, 10)],
           [(0, 0), (10, 0), (10, 10), (0, 10)],
           [(0, 0), (10, 0), (10, 10), (0, 10)]] : List (List Point)).take 3))
        (([[((0 : ℚ), (0 : ℚ)), (10, 0), (10, 10), (0, 10)],
           [(0, 0), (10, 0), (10, 10), (0, 10)],
           [(0, 0), (10, 0), (10, 10), (0, 10)],
           [(0, 0), (10, 0), (10, 10), (0, 10)]] : List (List Point)).get
          ⟨3, by decide⟩) = 0) ∧
    (2 ≤ 3 →
      0 ≤ QualityAssessor.stabScore (QualityAssessor.runHist
        (([[((0 : ℚ), (0 : ℚ)), (10, 0), (10, 10), (0, 10)],
           [(0, 0), (10, 0), (10, 10), (0, 10)],
           [(0, 0), (10, 0), (10, 10), (0, 10)],
           [(0, 0), (10, 0), (10, 10), (0, 10)]] : List (List Point)).take 3))
        (([[((0 : ℚ), (0 : ℚ)), (10, 0), (10, 10), (0, 10)],
           [(0, 0), (10, 0), (10, 10), (0, 10)],
           [(0, 0), (10, 0), (10, 10), (0, 10)],
           [(0, 0), (10, 0), (10, 10), (0, 10)]] : List (List Point)).get
          ⟨3, by decide⟩) ∧
      QualityAssessor.stabScore (QualityAssessor.runHist
        (([[((0 : ℚ), (0 : ℚ)), (10, 0), (10, 10), (0, 10)],
           [(0, 0), (10, 0), (10, 10), (0, 10)],
           [(0, 0), (10, 0), (10, 10), (0, 10)],
           [(0, 0), (10, 0), (10, 10), (0, 10)]] : List (List Point)).take 3))
        (([[((0 : ℚ), (0 : ℚ)), (10, 0), (10, 10), (0, 10)],
           [(0, 0), (10, 0), (10, 10), (0, 10)],
           [(0, 0), (10, 0), (10, 10), (0, 10)],
           [(0, 0), (10, 0), (10, 10), (0, 10)]] : List (List Point)).get
          ⟨3, by decide⟩) ≤ 1) ∧
    (3 ≤ 3 →
      QualityAssessor.stabScore (QualityAssessor.runHist
        (([[((0 : ℚ), (0 : ℚ)), (10, 0), (10, 10), (0, 10)],
           [(0, 0), (10, 0), (10, 10), (0, 10)],
           [(0, 0), (10, 0), (10, 10), (0, 10)],
           [(0, 0), (10, 0), (10, 10), (0, 10)]] : List (List Point)).take 3))
        (([[((0 : ℚ), (0 : ℚ)), (10, 0), (10, 10), (0, 10)],
           [(0, 0), (10, 0), (10, 10), (0, 10)],
           [(0, 0), (10, 0), (10, 10), (0, 10)],
           [(0, 0), (10, 0), (10, 10), (0, 10)]] : List (List Point)).get
          ⟨3, by decide⟩) =
      max 0 (1 - QualityAssessor.specAvgDisp (QualityAssessor.runHist
        (([[((0 : ℚ), (0 : ℚ)), (10, 0), (10, 10), (0, 10)],
           [(0, 0), (10, 0), (10, 10), (0, 10)],
           [(0, 0), (10, 0), (10, 10), (0, 10)],
           [(0, 0), (10, 0), (10, 10), (0, 10)]] : List (List Point)).take 3))
        (([[((0 : ℚ), (0 : ℚ)), (10, 0), (10, 10), (0, 10)],
           [(0, 0), (10, 0), (10, 10), (0, 10)],
           [(0, 0), (10, 0), (10, 10), (0, 10)],
           [(0, 0), (10, 0), (10, 10), (0, 10)]] : List (List Point)).get
          ⟨3, by decide⟩) / 20)) :=
  checkStability_warmup_and_score _ (by decide) 3 (by decide)

/-- Trapezoid metrics as computed inline in `CaptureEngine::analyzeFrame`
(capture_engine.cpp:129-165). -/
structure TrapMetrics where
  topWidth : ℝ
  bottomWidth : ℝ
  leftHeight : ℝ
  rightHeight : ℝ
  vertical_skew : ℝ
  horizontal_skew : ℝ
  skewRat : ℝ

/-- The edge lengths and skew computation of `analyzeFrame` on an ordered
corner set TL=p0, TR=p1, BR=p2, BL=p3: the skews are relative differences
of opposing edge lengths guarded by positive averages, and the overall
skew ratio is their maximum. -/
noncomputable def skewMetrics (p0 p1 p2 p3 : Point) : TrapMetrics :=
  let topWidth := ptDist p1 p0
  let bottomWidth := ptDist p2 p3
  let leftHeight := ptDist p3 p0
  let rightHeight := ptDist p2 p1
  let avgWidth := (topWidth + bottomWidth) / 2
  let vskew := if 0 < avgWidth then |topWidth - bottomWidth| / avgWidth else 0
  let avgHeight := (leftHeight + rightHeight) / 2
  let hskew := if 0 < avgHeight then |leftHeight - rightHeight| / avgHeight else 0
  ⟨topWidth, bottomWidth, leftHeight, rightHeight, vskew, hskew, max vskew hskew⟩

/-- Uniform scaling of a point by a rational factor. -/
def scalePt (k : ℚ) (p : Point) : Point := (k * p.1, k * p.2)

/-- Distances scale linearly under uniform nonneg scaling. -/
theorem ptDist_scale (k : ℚ) (hk : 0 ≤ k) (p q : Point) :
    ptDist (scalePt k p) (scalePt k q) = (k : ℝ) * ptDist p q := by
  unfold ptDist scalePt dist2
  have h : ((k * p.1 - k * q.1) ^ 2 + (k * p.2 - k * q.2) ^ 2 : ℚ) =
      k ^ 2 * ((p.1 - q.1) ^ 2 + (p.2 - q.2) ^ 2) := by ring
  rw [h]
  push_cast
  rw [Real.sqrt_mul (by positivity), Real.sqrt_sq (by exact_mod_cast hk)]

/-- The guarded relative-difference expression is invariant under
scaling both lengths by a positive factor. -/
theorem scaled_relative_diff (k a b : ℝ) (hk : 0 < k) (hab : (a + b) / 2 ≠ 0)
    (ha : 0 ≤ a) (hb : 0 ≤ b) :
    (if 0 < (k * a + k * b) / 2 then |k * a - k * b| / ((k * a + k * b) / 2) else 0) =
    (if 0 < (a + b) / 2 then |a - b| / ((a + b) / 2) else 0) := by
  have hpos : 0 < (a + b) / 2 :=
    lt_of_le_of_ne (by positivity) (Ne.symm hab)
  have hpos2 : 0 < (k * a + k * b) / 2 := by nlinarith
  rw [if_pos hpos2, if_pos hpos]
  rw [← mul_sub, abs_mul, abs_of_pos hk,
    show (k * a + k * b) / 2 = k * ((a + b) / 2) by ring]
  exact mul_div_mul_left _ _ (ne_of_gt hk)

/-- C7.  The skew metrics are scale-invariant: for nonzero average
widths/heights and any scalar k > 0, uniformly scaling the 4 corners
leaves vertical_skew, horizontal_skew, skew_ratio, and hence the
is_trapezoid predicate (skew_ratio > 0.05) unchanged. -/
theorem skewMetrics_scale_invariant (p0 p1 p2 p3 : Point) (k : ℚ) (hk : 0 < k)
    (hW : ((skewMetrics p0 p1 p2 p3).topWidth + (skewMetrics p0 p1 p2 p3).bottomWidth) / 2 ≠ 0)
    (hH : ((skewMetrics p0 p1 p2 p3).leftHeight + (skewMetrics p0 p1 p2 p3).rightHeight) / 2 ≠ 0) :
    (skewMetrics (scalePt k p0) (scalePt k p1) (scalePt k p2) (scalePt k p3)).vertical_skew =
      (skewMetrics p0 p1 p2 p3).vertical_skew ∧
    (skewMetrics (scalePt k p0) (scalePt k p1) (scalePt k p2) (scalePt k p3)).horizontal_skew =
      (skewMetrics p0 p1 p2 p3).horizontal_skew ∧
    (skewMetrics (scalePt k p0) (scalePt k p1) (scalePt k p2) (scalePt k p3)).skewRat =
      (skewMetrics p0 p1 p2 p3).skewRat ∧
    ((skewMetrics (scalePt k p0) (scalePt k p1) (scalePt k p2) (scalePt k p3)).skewRat > 0.05 ↔
      (skewMetrics p0 p1 p2 p3).skewRat > 0.05) := by
  have hkR : (0 : ℝ) < (k : ℝ) := by exact_mod_cast hk
  have hkQ : (0 : ℚ) ≤ k := le_of_lt hk
  unfold skewMetrics at *
  dsimp only at *
  rw [ptDist_scale k hkQ p1 p0, ptDist_scale k hkQ p2 p3,
    ptDist_scale k hkQ p3 p0, ptDist_scale k hkQ p2 p1]
  have hv := scaled_relative_diff (k : ℝ) (ptDist p1 p0) (ptDist p2 p3) hkR hW
    (Real.sqrt_nonneg _) (Real.sqrt_nonneg _)
  have hh := scaled_relative_diff (k : ℝ) (ptDist p3 p0) (ptDist p2 p1) hkR hH
    (Real.sqrt_nonneg _) (Real.sqrt_nonneg _)
  rw [hv, hh]
  exact ⟨rfl, rfl, rfl, Iff.rfl⟩

/-- C7, witness at a concrete trapezoid scaled by k = 2. -/
theorem skewMetrics_scale_invariant_witness :
    (skewMetrics (scalePt 2 (0, 0)) (scalePt 2 (4, 0)) (scalePt 2 (3, 3))
        (scalePt 2 (1, 3))).vertical_skew =
      (skewMetrics (0, 0) (4, 0) (3, 3) (1, 3)).vertical_skew ∧
    (skewMetrics (scalePt 2 (0, 0)) (scalePt 2 (4, 0)) (scalePt 2 (3, 3))
        (scalePt 2 (1, 3))).horizontal_skew =
      (skewMetrics (0, 0) (4, 0) (3, 3) (1, 3)).horizontal_skew ∧
    (skewMetrics (scalePt 2 (0, 0)) (scalePt 2 (4, 0)) (scalePt 2 (3, 3))
        (scalePt 2 (1, 3))).skewRat =
      (skewMetrics (0, 0) (4, 0) (3, 3) (1, 3)).skewRat ∧
    ((skewMetrics (scalePt 2 (0, 0)) (scalePt 2 (4, 0)) (scalePt 2 (3, 3))
        (scalePt 2 (1, 3))).skewRat > 0.05 ↔
      (skewMetrics (0, 0) (4, 0) (3, 3) (1, 3)).skewRat > 0.05) := by
  refine skewMetrics_scale_invariant (0, 0) (4, 0) (3, 3) (1, 3) 2 (by norm_num) ?_ ?_
  · unfold skewMetrics
    dsimp only
    unfold ptDist dist2
    norm_num
    positivity
  · unfold skewMetrics
    dsimp only
    unfold ptDist dist2
    norm_num

namespace ImageEnhancer

/-- 2D prefix-sum table of intensities, the external `cv::integral`
primitive: entry (i,j) holds the sum of all pixels with y < i, x < j. -/
def integralSum (img : ℕ → ℕ → ℚ) (i j : ℕ) : ℚ :=
  ∑ yy ∈ Finset.range i, ∑ xx ∈ Finset.range j, img yy xx

/-- 2D prefix-sum table of squared intensities (second output of
`cv::integral`). -/
def integralSqSum (img : ℕ → ℕ → ℚ) (i j : ℕ) : ℚ :=
  integralSum (fun yy xx => img yy xx ^ 2) i j

/-- Effective window size: `sauvolaBinarize` forces an odd window. -/
def effWindow (windowSize : ℕ) : ℕ :=
  if windowSize % 2 = 0 then windowSize + 1 else windowSize

/-- Lower window coordinate `max(0, c - halfWindow)` (natural
subtraction models the `std::max(0, ...)` clamp). -/
def winLo (windowSize c : ℕ) : ℕ := c - effWindow windowSize / 2

/-- Upper window coordinate `min(extent - 1, c + halfWindow)`. -/
def winHi (windowSize extent c : ℕ) : ℕ :=
  min (extent - 1) (c + effWindow windowSize / 2)

/-- `ImageEnhancer::sauvolaBinarize` (image_enhancer.cpp:221-290) at pixel
(y,x): window statistics are obtained from the four-corner integral-image
query over the window clipped to the image bounds, the Sauvola threshold
is `mean * (1 + k * (stddev/R - 1))`, and the pixel becomes foreground
(255) exactly when its intensity exceeds the threshold, else background
(0). -/
noncomputable def sauvolaBinarize (img : ℕ → ℕ → ℚ) (rows cols : ℕ)
    (windowSize : ℕ) (k R : ℝ) (y x : ℕ) : ℚ :=
  let x1 := winLo windowSize x
  let y1 := winLo windowSize y
  let x2 := winHi windowSize cols x
  let y2 := winHi windowSize rows y
  let area : ℚ := (((x2 - x1 + 1) * (y2 - y1 + 1) : ℕ) : ℚ)
  let s : ℚ := integralSum img (y2 + 1) (x2 + 1) - integralSum img y1 (x2 + 1)
    - integralSum img (y2 + 1) x1 + integralSum img y1 x1
  let sq : ℚ := integralSqSum img (y2 + 1) (x2 + 1) - integralSqSum img y1 (x2 + 1)
    - integralSqSum img (y2 + 1) x1 + integralSqSum img y1 x1
  let mean : ℚ := s / area
  let varQ : ℚ := sq / area - mean ^ 2
  let stddev : ℝ := Real.sqrt (max 0 (varQ : ℝ))
  let threshold : ℝ := (mean : ℝ) * (1 + k * (stddev / R - 1))
  if (img y x : ℝ) > threshold then 255 else 0

/-- The claim's window mean: the average intensity computed directly over
the clipped window. -/
def windowMean (img : ℕ → ℕ → ℚ) (y1 y2 x1 x2 : ℕ) : ℚ :=
  (∑ yy ∈ Finset.Icc y1 y2, ∑ xx ∈ Finset.Icc x1 x2, img yy xx) /
    (((x2 - x1 + 1) * (y2 - y1 + 1) : ℕ) : ℚ)

/-- The claim's window variance: direct mean of squares minus squared
mean over the clipped window. -/
def windowVar (img : ℕ → ℕ → ℚ) (y1 y2 x1 x2 : ℕ) : ℚ :=
  (∑ yy ∈ Finset.Icc y1 y2, ∑ xx ∈ Finset.Icc x1 x2, img yy xx ^ 2) /
    (((x2 - x1 + 1) * (y2 - y1 + 1) : ℕ) : ℚ) - windowMean img y1 y2 x1 x2 ^ 2

/-- Correctness of the four-corner integral-image query: it equals the
direct sum over the window. -/
theorem integral_window (f : ℕ → ℕ → ℚ) (y1 y2 x1 x2 : ℕ)
    (hy : y1 ≤ y2 + 1) (hx : x1 ≤ x2 + 1) :
    integralSum f (y2 + 1) (x2 + 1) - integralSum f y1 (x2 + 1)
      - integralSum f (y2 + 1) x1 + integralSum f y1 x1 =
    ∑ yy ∈ Finset.Icc y1 y2, ∑ xx ∈ Finset.Icc x1 x2, f yy xx := by
  unfold integralSum
  have hrow : ∀ j : ℕ,
      (∑ yy ∈ Finset.range (y2 + 1), ∑ xx ∈ Finset.range j, f yy xx)
        - (∑ yy ∈ Finset.range y1, ∑ xx ∈ Finset.range j, f yy xx)
      = ∑ yy ∈ Finset.Ico y1 (y2 + 1), ∑ xx ∈ Finset.range j, f yy xx := by
    intro j
    rw [Finset.sum_Ico_eq_sub _ hy]
  calc integralSum f (y2 + 1) (x2 + 1) - integralSum f y1 (x2 + 1)
      - integralSum f (y2 + 1) x1 + integralSum f y1 x1
      = (integralSum f (y2 + 1) (x2 + 1) - integralSum f y1 (x2 + 1))
        - (integralSum f (y2 + 1) x1 - integralSum f y1 x1) := by
        unfold integralSum; ring
    _ = (∑ yy ∈ Finset.Ico y1 (y2 + 1), ∑ xx ∈ Finset.range (x2 + 1), f yy xx)
        - ∑ yy ∈ Finset.Ico y1 (y2 + 1), ∑ xx ∈ Finset.range x1, f yy xx := by
        unfold integralSum; rw [hrow, hrow]
    _ = ∑ yy ∈ Finset.Ico y1 (y2 + 1),
        ((∑ xx ∈ Finset.range (x2 + 1), f yy xx) - ∑ xx ∈ Finset.range x1, f yy xx) := by
        rw [Finset.sum_sub_distrib]
    _ = ∑ yy ∈ Finset.Ico y1 (y2 + 1), ∑ xx ∈ Finset.Ico x1 (x2 + 1), f yy xx := by
        refine Finset.sum_congr rfl fun yy _ => ?_
        rw [Finset.sum_Ico_eq_sub _ hx]
    _ = ∑ yy ∈ Finset.Icc y1 y2, ∑ xx ∈ Finset.Icc x1 x2, f yy xx := by
        rw [Nat.Ico_succ_right]
        refine Finset.sum_congr rfl fun yy _ => ?_
        rw [Nat.Ico_succ_right]

/-- C4.  For every single-channel image, window size, sensitivity k and
range R, the Sauvola binarizer marks an in-bounds pixel foreground (255)
exactly when its intensity exceeds `mean * (1 + k * (stddev/R - 1))`,
with mean and stddev computed directly over the window clipped to the
image bounds, and background (0) otherwise; the output is binary. -/
theorem sauvolaBinarize_spec (img : ℕ → ℕ → ℚ) (rows cols windowSize : ℕ)
    (k R : ℝ) (y x : ℕ) (hy : y < rows) (hx : x < cols) :
    (sauvolaBinarize img rows cols windowSize k R y x = 255 ↔
      (img y x : ℝ) >
        ((windowMean img (winLo windowSize y) (winHi windowSize rows y)
            (winLo windowSize x) (winHi windowSize cols x) : ℚ) : ℝ) *
          (1 + k * (Real.sqrt (max 0 ((windowVar img (winLo windowSize y)
            (winHi windowSize rows y) (winLo windowSize x)
            (winHi windowSize cols x) : ℚ) : ℝ)) / R - 1))) ∧
    (sauvolaBinarize img rows cols windowSize k R y x = 255 ∨
      sauvolaBinarize img rows cols windowSize k R y x = 0) := by
  have hyb : winLo windowSize y ≤ winHi windowSize rows y + 1 := by
    have h1 : winLo windowSize y ≤ y := Nat.sub_le _ _
    have h2 : y ≤ winHi windowSize rows y := by
      unfold winHi
      exact le_min (by omega) (Nat.le_add_right _ _)
    omega
  have hxb : winLo windowSize x ≤ winHi windowSize cols x + 1 := by
    have h1 : winLo windowSize x ≤ x := Nat.sub_le _ _
    have h2 : x ≤ winHi windowSize cols x := by
      unfold winHi
      exact le_min (by omega) (Nat.le_add_right _ _)
    omega
  have hs := integral_window img (winLo windowSize y) (winHi windowSize rows y)
    (winLo windowSize x) (winHi windowSize cols x) hyb hxb
  have hsq := integral_window (fun yy xx => img yy xx ^ 2) (winLo windowSize y)
    (winHi windowSize rows y) (winLo windowSize x) (winHi windowSize cols x) hyb hxb
  unfold sauvolaBinarize
  dsimp only
  unfold integralSqSum
  rw [hs, hsq]
  constructor
  · unfold windowMean windowVar
    split
    · rename_i hgt
      simp only [true_iff]
      exact hgt
    · rename_i hgt
      constructor
      · intro h255
        norm_num at h255
      · intro hq
        exact absurd hq hgt
  · split
    · exact Or.inl rfl
    · exact Or.inr rfl

/-- C4, witness: a uniform 2x2 image (stddev 0) with window 15, k = 0.2,
R = 128, evaluated at the origin pixel. -/
theorem sauvolaBinarize_spec_witness :
    (sauvolaBinarize (fun _ _ => 100) 2 2 15 0.2 128 0 0 = 255 ↔
      ((100 : ℚ) : ℝ) >
        ((windowMean (fun _ _ => 100) (winLo 15 0) (winHi 15 2 0)
            (winLo 15 0) (winHi 15 2 0) : ℚ) : ℝ) *
          (1 + 0.2 * (Real.sqrt (max 0 ((windowVar (fun _ _ => 100) (winLo 15 0)
            (winHi 15 2 0) (winLo 15 0) (winHi 15 2 0) : ℚ) : ℝ)) / 128 - 1))) ∧
    (sauvolaBinarize (fun _ _ => 100) 2 2 15 0.2 128 0 0 = 255 ∨
      sauvolaBinarize (fun _ _ => 100) 2 2 15 0.2 128 0 0 = 0) :=
  sauvolaBinarize_spec (fun _ _ => 100) 2 2 15 0.2 128 0 0 (by decide) (by decide)

end ImageEnhancer

/-- An axis-aligned integer rectangle, modelling `cv::Rect`. -/
structure Rect where
  x : ℤ
  y : ℤ
  w : ℤ
  h : ℤ
deriving DecidableEq

/-- Intersection of two rectangles (`cv::Rect::operator&`); only the
width/height smallness tests are consumed downstream, so a nonpositive
width or height models an empty intersection faithfully for those tests. -/
def rectInter (a b : Rect) : Rect :=
  let x := max a.x b.x
  let y := max a.y b.y
  ⟨x, y, min (a.x + a.w) (b.x + b.w) - x, min (a.y + a.h) (b.y + b.h) - y⟩

/-- Pixel statistics of a grayscale image or region, delivered by the
external primitives: `lapVar` is the Laplacian variance consumed by
`detectBlur` (via `cv::Laplacian` + `cv::meanStdDev`), `meanIntensity`
the mean gray level consumed by `checkBrightness` (via `cv::mean`). -/
structure GrayStats where
  lapVar : ℚ
  meanIntensity : ℚ

namespace QualityAssessor

/-- `QualityAssessor::detectBlur` (quality_assessor.cpp:300-315):
Laplacian variance normalised by 500 and capped at 1. -/
def detectBlur (g : GrayStats) : ℚ := min (g.lapVar / 500) 1

/-- `QualityAssessor::checkBrightness` (quality_assessor.cpp:317-329):
score peaking at mid-gray, clamped at 0. -/
def checkBrightness (g : GrayStats) : ℚ :=
  max 0 (1 - |g.meanIntensity / 255 - 1 / 2| * 2)

/-- `QualityAssessor::detectBlurInRegion` (quality_assessor.cpp:331-340):
clip the region to the image bounds and fall back to whole-frame blur
when the clipped region is smaller than 10x10; region statistics come
from the oracle `regionStats`. -/
def detectBlurInRegion (g : GrayStats) (regionStats : Rect → GrayStats)
    (cols rows : ℤ) (region : Rect) : ℚ :=
  let safe := rectInter region ⟨0, 0, cols, rows⟩
  if safe.w < 10 ∨ safe.h < 10 then detectBlur g
  else detectBlur (regionStats safe)

/-- `QualityAssessor::checkBrightnessInRegion`
(quality_assessor.cpp:342-351), analogous to the blur variant. -/
def checkBrightnessInRegion (g : GrayStats) (regionStats : Rect → GrayStats)
    (cols rows : ℤ) (region : Rect) : ℚ :=
  let safe := rectInter region ⟨0, 0, cols, rows⟩
  if safe.w < 10 ∨ safe.h < 10 then checkBrightness g
  else checkBrightness (regionStats safe)

/-- `QualityScore` (quality_assessor.hpp:30-55), scalar fields. -/
structure QualityScore where
  blur_score : ℝ
  brightness_score : ℝ
  stability_score : ℝ
  corner_confidence : ℝ

/-- `QualityScore::overall()`: the frame-path weighted sum. -/
noncomputable def QualityScore.overall (q : QualityScore) : ℝ :=
  q.blur_score * 0.3 + q.brightness_score * 0.2 +
    q.stability_score * 0.3 + q.corner_confidence * 0.2

/-- `QualityAssessor::assess` (quality_assessor.cpp:267-298): default
scores (with the given corner confidence) for an empty frame; otherwise
blur and brightness on the whole grayscale frame, and stability — with
its history side effect — only for a non-empty 4-point corner list.
Returns the score together with the updated history. -/
noncomputable def assess (hist : List (List Point)) (frameEmpty : Bool)
    (g : GrayStats) (corners : List Point) (conf : ℝ) :
    QualityScore × List (List Point) :=
  if frameEmpty = true then (⟨0, 0, 0, conf⟩, hist)
  else if corners ≠ [] ∧ corners.length = 4 then
    (⟨((detectBlur g : ℚ) : ℝ), ((checkBrightness g : ℚ) : ℝ),
      stabScore hist corners, conf⟩, stabStep hist corners)
  else
    (⟨((detectBlur g : ℚ) : ℝ), ((checkBrightness g : ℚ) : ℝ), 0, conf⟩, hist)

end QualityAssessor

/-- `DetectionResult` (document_detector.hpp). -/
structure DetectionResult where
  found : Bool
  corners : List Point
  confidence : ℝ

/-- The fields of `TextRegionsResult` (quality_assessor.hpp:18-28)
consumed by the orchestrator; it is produced by
`QualityAssessor::detectTextRegions`, a pipeline of external contour /
threshold / morphology primitives, and therefore enters as an oracle. -/
structure TextRegionsResult where
  found : Bool
  regionCount : ℤ
  coverageRat : ℝ
  overallBounds : Rect
  overallCorners : List Point
  regionsBounds : List Rect

/-- `FrameAnalysisResult` (capture_engine.hpp:13-65). -/
structure FrameAnalysisResult where
  document_found : Bool
  table_found : Bool
  text_region_found : Bool
  corners : Fin 8 → ℝ
  corner_confidence : ℝ
  blur_score : ℝ
  brightness_score : ℝ
  stability_score : ℝ
  overall_score : ℝ
  capture_ready : Prop
  is_trapezoid : Prop
  skewRat : ℝ
  top_width : ℝ
  bottom_width : ℝ
  left_height : ℝ
  right_height : ℝ
  vertical_skew : ℝ
  horizontal_skew : ℝ
  text_region_count : ℤ
  text_regions_bounds : List Rect
  overall_bounds : ℝ × ℝ × ℝ × ℝ
  coverageRat : ℝ

/-- The zero-initialised `FrameAnalysisResult` constructor
(capture_engine.hpp:41-64). -/
def FrameAnalysisResult.init : FrameAnalysisResult :=
  ⟨false, false, false, fun _ => 0, 0, 0, 0, 0, 0, False, False,
    0, 0, 0, 0, 0, 0, 0, 0, [], (0, 0, 0, 0), 0⟩

/-- Copy a 4-point corner list into the flat `corners[8]` layout
(x0,y0,...,x3,y3). -/
noncomputable def corners8 (cs : List Point) : Fin 8 → ℝ :=
  fun j =>
    let p := cs.getD ((j : ℕ) / 2) (0, 0)
    if (j : ℕ) % 2 = 0 then (p.1 : ℝ) else (p.2 : ℝ)

/-- Everything one `analyzeFrame` call learns about the rotated/cropped
frame from its collaborators (detector output, text-region fallback
output, pixel statistics); the remaining control flow and arithmetic is
the orchestrator's own. -/
structure FrameOracle where
  matEmpty : Bool
  cols : ℤ
  rows : ℤ
  detection : DetectionResult
  textRegions : TextRegionsResult
  gray : GrayStats
  regionStats : Rect → GrayStats

namespace CaptureEngine

/-- The body of `CaptureEngine::analyzeFrame` after input validation and
frame preparation (capture_engine.cpp:92-254): detector result copied
into the result; on a found 4-corner quadrilateral the trapezoid metrics
and quality (via `assess`, which updates the history) with the
blur>0.6 ∧ brightness>0.5 ∧ stability>0.8 readiness gate; otherwise the
text-region fallback with region-scoped blur/brightness, stability from
`assess` on the overall corners, the 0.4/0.2/0.2/0.2 overall score, and
the stricter stability>0.9 readiness gate. -/
noncomputable def analyzeFrameCore (hist : List (List Point)) (f : FrameOracle) :
    FrameAnalysisResult × List (List Point) :=
  let det := f.detection
  let base := { FrameAnalysisResult.init with
    document_found := det.found
    corner_confidence := det.confidence }
  if det.found = true ∧ det.corners.length = 4 then
    let p0 := det.corners.getD 0 (0, 0)
    let p1 := det.corners.getD 1 (0, 0)
    let p2 := det.corners.getD 2 (0, 0)
    let p3 := det.corners.getD 3 (0, 0)
    let m := skewMetrics p0 p1 p2 p3
    let q := QualityAssessor.assess hist f.matEmpty f.gray det.corners det.confidence
    ({ base with
        table_found := true
        corners := corners8 det.corners
        top_width := m.topWidth
        bottom_width := m.bottomWidth
        left_height := m.leftHeight
        right_height := m.rightHeight
        vertical_skew := m.vertical_skew
        horizontal_skew := m.horizontal_skew
        skewRat := m.skewRat
        is_trapezoid := m.skewRat > 0.05
        blur_score := q.1.blur_score
        brightness_score := q.1.brightness_score
        stability_score := q.1.stability_score
        overall_score := q.1.overall
        capture_ready := q.1.blur_score > 0.6 ∧ q.1.brightness_score > 0.5 ∧
          q.1.stability_score > 0.8 }, q.2)
  else
    let tr := f.textRegions
    let inner :=
      if tr.found = true then
        let blur : ℝ :=
          ((QualityAssessor.detectBlurInRegion f.gray f.regionStats f.cols f.rows
            tr.overallBounds : ℚ) : ℝ)
        let bright : ℝ :=
          ((QualityAssessor.checkBrightnessInRegion f.gray f.regionStats f.cols f.rows
            tr.overallBounds : ℚ) : ℝ)
        let stPair :=
          if tr.overallCorners.length = 4 then
            let q := QualityAssessor.assess hist f.matEmpty f.gray tr.overallCorners
              tr.coverageRat
            (q.1.stability_score, q.2)
          else ((0 : ℝ), hist)
        ({ base with
            text_region_found := true
            text_region_count := min tr.regionCount 8
            coverageRat := tr.coverageRat
            overall_bounds := ((tr.overallBounds.x : ℝ), (tr.overallBounds.y : ℝ),
              (tr.overallBounds.w : ℝ), (tr.overallBounds.h : ℝ))
            corners := if tr.overallCorners.length = 4 then corners8 tr.overallCorners
              else FrameAnalysisResult.init.corners
            text_regions_bounds := tr.regionsBounds.take (min tr.regionCount 8).toNat
            blur_score := blur
            brightness_score := bright
            stability_score := stPair.1
            corner_confidence := tr.coverageRat
            overall_score := blur * 0.4 + bright * 0.2 + stPair.1 * 0.2 +
              tr.coverageRat * 0.2 }, stPair.2)
      else
        ({ base with
            blur_score := ((QualityAssessor.detectBlur f.gray : ℚ) : ℝ)
            brightness_score := ((QualityAssessor.checkBrightness f.gray : ℚ) : ℝ) },
          hist)
    ({ inner.1 with
        capture_ready := inner.1.blur_score > 0.6 ∧ inner.1.brightness_score > 0.5 ∧
          inner.1.stability_score > 0.9 }, inner.2)

/-- The orchestrator's cross-call state: the assessor's history plus the
cached `last_analysis_` (capture_engine.hpp:181-186). -/
structure EngineState where
  history : List (List Point)
  last_analysis : FrameAnalysisResult

/-- `CaptureEngine::reset` (capture_engine.cpp:17-21): forwards to
`QualityAssessor::reset`, which clears the corner history; nothing else
is touched. -/
def reset (s : EngineState) : EngineState := ⟨[], s.last_analysis⟩

/-- `CaptureEngine::getLastAnalysis` (capture_engine.hpp:164). -/
def getLastAnalysis (s : EngineState) : FrameAnalysisResult := s.last_analysis

/-- `CaptureEngine::analyzeFrame` (capture_engine.cpp:48-255) at the
engine level: a null buffer (`buf = none`), non-positive dimensions, or
an empty converted Mat return the default result leaving the state (in
particular `last_analysis_`) untouched; otherwise the core runs and its
result is stored into `last_analysis_`. -/
noncomputable def analyzeFrame (s : EngineState) (buf : Option FrameOracle)
    (width height : ℤ) : FrameAnalysisResult × EngineState :=
  match buf with
  | none => (FrameAnalysisResult.init, s)
  | some f =>
    if width ≤ 0 ∨ height ≤ 0 then (FrameAnalysisResult.init, s)
    else if f.matEmpty = true then (FrameAnalysisResult.init, s)
    else
      let r := analyzeFrameCore s.history f
      (r.1, ⟨r.2, r.1⟩)

end CaptureEngine

/-- C1.  In `analyzeFrame`, when a 4-corner quadrilateral is found,
`capture_ready` holds iff blur > 0.6, brightness > 0.5 and
stability > 0.8 (on the scores the result carries); on the fallback path
(no 4-corner quadrilateral) it holds iff blur > 0.6, brightness > 0.5 and
the stricter stability > 0.9. -/
theorem analyzeFrame_capture_ready_iff (hist : List (List Point)) (f : FrameOracle) :
    (f.detection.found = true ∧ f.detection.corners.length = 4 →
      ((CaptureEngine.analyzeFrameCore hist f).1.capture_ready ↔
        (CaptureEngine.analyzeFrameCore hist f).1.blur_score > 0.6 ∧
        (CaptureEngine.analyzeFrameCore hist f).1.brightness_score > 0.5 ∧
        (CaptureEngine.analyzeFrameCore hist f).1.stability_score > 0.8)) ∧
    (¬(f.detection.found = true ∧ f.detection.corners.length = 4) →
      ((CaptureEngine.analyzeFrameCore hist f).1.capture_ready ↔
        (CaptureEngine.analyzeFrameCore hist f).1.blur_score > 0.6 ∧
        (CaptureEngine.analyzeFrameCore hist f).1.brightness_score > 0.5 ∧
        (CaptureEngine.analyzeFrameCore hist f).1.stability_score > 0.9)) := by
  constructor
  · intro hfound
    unfold CaptureEngine.analyzeFrameCore
    rw [if_pos hfound]
  · intro hnot
    unfold CaptureEngine.analyzeFrameCore
    rw [if_neg hnot]

/-- C1, witness: a concrete oracle whose detector reports a found
4-corner quadrilateral, and one whose detector reports nothing. -/
theorem analyzeFrame_capture_ready_iff_witness :
    ((CaptureEngine.analyzeFrameCore []
        ⟨false, 100, 100, ⟨true, [(0, 0), (10, 0), (10, 10), (0, 10)], 1⟩,
          ⟨false, 0, 0, ⟨0, 0, 0, 0⟩, [], []⟩, ⟨600, 128⟩,
          fun _ => ⟨600, 128⟩⟩).1.capture_ready ↔
      (CaptureEngine.analyzeFrameCore []
        ⟨false, 100, 100, ⟨true, [(0, 0), (10, 0), (10, 10), (0, 10)], 1⟩,
          ⟨false, 0, 0, ⟨0, 0, 0, 0⟩, [], []⟩, ⟨600, 128⟩,
          fun _ => ⟨600, 128⟩⟩).1.blur_score > 0.6 ∧
      (CaptureEngine.analyzeFrameCore []
        ⟨false, 100, 100, ⟨true, [(0, 0), (10, 0), (10, 10), (0, 10)], 1⟩,
          ⟨false, 0, 0, ⟨0, 0, 0, 0⟩, [], []⟩, ⟨600, 128⟩,
          fun _ => ⟨600, 128⟩⟩).1.brightness_score > 0.5 ∧
      (CaptureEngine.analyzeFrameCore []
        ⟨false, 100, 100, ⟨true, [(0, 0), (10, 0), (10, 10), (0, 10)], 1⟩,
          ⟨false, 0, 0, ⟨0, 0, 0, 0⟩, [], []⟩, ⟨600, 128⟩,
          fun _ => ⟨600, 128⟩⟩).1.stability_score > 0.8) ∧
    ((CaptureEngine.analyzeFrameCore []
        ⟨false, 100, 100, ⟨false, [], 0⟩,
          ⟨false, 0, 0, ⟨0, 0, 0, 0⟩, [], []⟩, ⟨600, 128⟩,
          fun _ => ⟨600, 128⟩⟩).1.capture_ready ↔
      (CaptureEngine.analyzeFrameCore []
        ⟨false, 100, 100, ⟨false, [], 0⟩,
          ⟨false, 0, 0, ⟨0, 0, 0, 0⟩, [], []⟩, ⟨600, 128⟩,
          fun _ => ⟨600, 128⟩⟩).1.blur_score > 0.6 ∧
      (CaptureEngine.analyzeFrameCore []
        ⟨false, 100, 100, ⟨false, [], 0⟩,
          ⟨false, 0, 0, ⟨0, 0, 0, 0⟩, [], []⟩, ⟨600, 128⟩,
          fun _ => ⟨600, 128⟩⟩).1.brightness_score > 0.5 ∧
      (CaptureEngine.analyzeFrameCore []
        ⟨false, 100, 100, ⟨false, [], 0⟩,
          ⟨false, 0, 0, ⟨0, 0, 0, 0⟩, [], []⟩, ⟨600, 128⟩,
          fun _ => ⟨600, 128⟩⟩).1.stability_score > 0.9) :=
  ⟨(analyzeFrame_capture_ready_iff [] _).1 ⟨rfl, rfl⟩,
    (analyzeFrame_capture_ready_iff [] _).2 (by intro h; exact absurd h.1 (by decide))⟩

/-- The 8 virtual-trapezoid output coordinates (TL, TR, BR, BL pairs),
the `out_corners` buffer of `calculateVirtualTrapezoid`. -/
structure Quad8 where
  tlX : ℝ
  tlY : ℝ
  trX : ℝ
  trY : ℝ
  brX : ℝ
  brY : ℝ
  blX : ℝ
  blY : ℝ

open Classical in
/-- `CaptureEngine::calculateVirtualTrapezoid`
(capture_engine.cpp:392-457): start from the guide rectangle's corners;
only when the last analysis found a table and flagged it trapezoidal,
shrink the narrower horizontal edge (vertical skew > 0.01) and the
shorter vertical edge (horizontal skew > 0.01) by the guide-scaled
relative skew. -/
noncomputable def CaptureEngine.calculateVirtualTrapezoid
    (la : FrameAnalysisResult)
    (guide_left guide_top guide_right guide_bottom : ℝ) : Quad8 :=
  let guide_width := guide_right - guide_left
  let guide_height := guide_bottom - guide_top
  let s0 : Quad8 := ⟨guide_left, guide_top, guide_right, guide_top,
    guide_right, guide_bottom, guide_left, guide_bottom⟩
  if la.table_found = true ∧ la.is_trapezoid then
    let s1 :=
      if la.vertical_skew > 0.01 then
        let topW := la.top_width
        let bottomW := la.bottom_width
        let avgW := (topW + bottomW) / 2
        if 0 < avgW then
          let skewDiff := (bottomW - topW) / avgW
          let adj := guide_width * |skewDiff| / 2
          if bottomW > topW then
            { s0 with tlX := s0.tlX + adj, trX := s0.trX - adj }
          else
            { s0 with blX := s0.blX + adj, brX := s0.brX - adj }
        else s0
      else s0
    if la.horizontal_skew > 0.01 then
      let leftH := la.left_height
      let rightH := la.right_height
      let avgH := (leftH + rightH) / 2
      if 0 < avgH then
        let skewDiff := (rightH - leftH) / avgH
        let adj := guide_height * |skewDiff| / 2
        if rightH > leftH then
          { s1 with tlY := s1.tlY + adj, blY := s1.blY - adj }
        else
          { s1 with trY := s1.trY + adj, brY := s1.brY - adj }
      else s1
    else s1
  else s0

/-- C8.  When the stored last analysis does not have both
`table_found = true` and `is_trapezoid`, `calculateVirtualTrapezoid`
outputs exactly the guide rectangle's four corners (TL, TR, BR, BL)
unmodified. -/
theorem calculateVirtualTrapezoid_no_trapezoid_id (la : FrameAnalysisResult)
    (gl gt gr gb : ℝ) (h : ¬(la.table_found = true ∧ la.is_trapezoid)) :
    CaptureEngine.calculateVirtualTrapezoid la gl gt gr gb =
      ⟨gl, gt, gr, gt, gr, gb, gl, gb⟩ := by
  unfold CaptureEngine.calculateVirtualTrapezoid
  rw [if_neg h]

/-- C8, witness at the zero-initialised last analysis
(`table_found = false`) and a concrete guide rectangle. -/
theorem calculateVirtualTrapezoid_no_trapezoid_id_witness :
    CaptureEngine.calculateVirtualTrapezoid FrameAnalysisResult.init 1 2 3 4 =
      ⟨1, 2, 3, 2, 3, 4, 1, 4⟩ :=
  calculateVirtualTrapezoid_no_trapezoid_id FrameAnalysisResult.init 1 2 3 4
    (by intro h; exact absurd h.1 (by decide))

/-- Dimensional shadow of a `cv::Mat`: rows, cols, channels and an
emptiness flag; pixel contents belong to the external primitives. -/
structure MatD where
  rows : ℤ
  cols : ℤ
  channels : ℤ
  isEmpt : Bool

/-- The default-constructed (empty) `cv::Mat`. -/
def MatD.emptyMat : MatD := ⟨0, 0, 0, true⟩

/-- `CorrectionResult` (perspective_corrector.hpp): default-constructed
with `success = false`, zero size and an empty image. -/
structure CorrectionResult where
  image : MatD
  success : Bool
  width : ℤ
  height : ℤ

/-- `PerspectiveCorrector::calculateOutputSize`
(perspective_corrector.cpp:49-67): average opposing edge lengths of the
ordered corners, clamped to a 100x100 minimum, truncated to int. -/
noncomputable def PerspectiveCorrector.calculateOutputSize (cs : List Point) : ℤ × ℤ :=
  let p0 := cs.getD 0 (0, 0)
  let p1 := cs.getD 1 (0, 0)
  let p2 := cs.getD 2 (0, 0)
  let p3 := cs.getD 3 (0, 0)
  let w : ℝ := max ((ptDist p1 p0 + ptDist p2 p3) / 2) 100
  let h : ℝ := max ((ptDist p3 p0 + ptDist p2 p1) / 2) 100
  (Int.floor w, Int.floor h)

/-- `PerspectiveCorrector::correct` (perspective_corrector.cpp:9-47):
the default (failed) result for an empty image or a corner count other
than 4; otherwise the corners are ordered, the output size resolved
(auto-estimated when a component is 0), and the warp — an external
primitive that always yields a Mat of the requested size — succeeds. -/
noncomputable def PerspectiveCorrector.correct (image : MatD) (corners : List Point)
    (outW outH : ℤ) : CorrectionResult :=
  if image.isEmpt = true ∨ corners.length ≠ 4 then ⟨MatD.emptyMat, false, 0, 0⟩
  else
    let ordered := PerspectiveCorrector.orderCorners corners
    let sz := if outW = 0 ∨ outH = 0 then PerspectiveCorrector.calculateOutputSize ordered
      else (outW, outH)
    ⟨⟨sz.2, sz.1, image.channels, false⟩, true, sz.1, sz.2⟩

/-- `EnhanceMode` (capture_engine.hpp:68-74). -/
inductive EnhanceMode where
  | noneMode
  | whitenBg
  | contrastStretch
  | adaptiveBin
  | sauvola

/-- `EnhancementOptions` (capture_engine.hpp:76-98). -/
structure EnhancementOptions where
  apply_crop : Bool
  apply_perspective_correction : Bool
  apply_deskew : Bool
  apply_auto_enhance : Bool
  apply_sharpening : Bool
  sharpening_strength : ℝ
  enhance_mode : EnhanceMode
  output_width : ℤ
  output_height : ℤ

/-- `EnhancementResult` (capture_engine.hpp:100-118): the output buffer
is `none` unless allocated on the success path. -/
structure EnhancementResult where
  image_data : Option MatD
  width : ℤ
  height : ℤ
  channels : ℤ
  success : Bool
  error_message : String

/-- The default-constructed `EnhancementResult`. -/
def EnhancementResult.init : EnhancementResult := ⟨none, 0, 0, 0, false, ""⟩

/-- Rectangular-crop branch shared by the enhance calls
(capture_engine.cpp:288-305): bounding box of the 4 corners, clamped to
the frame, applied only when it is positive. -/
def cropToBBox (frame : MatD) (cs : Fin 8 → ℚ) : MatD :=
  let minX := min (min (min (cs 0) (cs 2)) (cs 4)) (cs 6)
  let maxX := max (max (max (cs 0) (cs 2)) (cs 4)) (cs 6)
  let minY := min (min (min (cs 1) (cs 3)) (cs 5)) (cs 7)
  let maxY := max (max (max (cs 1) (cs 3)) (cs 5)) (cs 7)
  let x := max 0 (Int.floor minX)
  let y := max 0 (Int.floor minY)
  let w := min (frame.cols - x) (Int.floor (maxX - minX))
  let h := min (frame.rows - y) (Int.floor (maxY - minY))
  if 0 < w ∧ 0 < h then ⟨h, w, frame.channels, false⟩ else frame

/-- The same crop over the real-valued virtual-trapezoid corners
(capture_engine.cpp:507-522). -/
noncomputable def cropToBBoxQuad (frame : MatD) (q : Quad8) : MatD :=
  let minX := min (min (min q.tlX q.trX) q.brX) q.blX
  let maxX := max (max (max q.tlX q.trX) q.brX) q.blX
  let minY := min (min (min q.tlY q.trY) q.brY) q.blY
  let maxY := max (max (max q.tlY q.trY) q.brY) q.blY
  let x := max 0 (Int.floor minX)
  let y := max 0 (Int.floor minY)
  let w := min (frame.cols - x) (Int.floor (maxX - minX))
  let h := min (frame.rows - y) (Int.floor (maxY - minY))
  if 0 < w ∧ 0 < h then ⟨h, w, frame.channels, false⟩ else frame

/-- Corner-array-to-point-list conversion of the perspective branch
(capture_engine.cpp:309-314). -/
def cornerPts (cs : Fin 8 → ℚ) : List Point :=
  [(cs 0, cs 1), (cs 2, cs 3), (cs 4, cs 5), (cs 6, cs 7)]

/-- The Mat entering the perspective step of `enhanceImage`: the simple
crop applies only when requested without perspective correction. -/
def enhanceProcessed (frame : MatD) (cs : Fin 8 → ℚ)
    (options : EnhancementOptions) : MatD :=
  if options.apply_crop = true ∧ options.apply_perspective_correction = false then
    cropToBBox frame cs
  else frame

/-- Dimensional effect of the OCR enhancement modes: both binarisers
return 3-channel BGR Mats; every mode preserves rows and cols, and none
touches buffer presence. -/
def applyModeDims (mode : EnhanceMode) (m : MatD) : MatD :=
  match mode with
  | .adaptiveBin => { m with channels := 3 }
  | .sauvola => { m with channels := 3 }
  | _ => m

/-- `CaptureEngine::enhanceImage` (capture_engine.cpp:257-383),
parameterised by the corrector component so that the failure-propagation
claim ranges over every corrector outcome; `enhanceImage` below ties it
to `PerspectiveCorrector::correct`.  `buf = none` models a null pixel
pointer, `corners = none` a null corner pointer, and `frame` the oracle
outcome of `bufferToMat`.  Auto-enhance and sharpening act on pixels via
external primitives, preserving dimensions and buffer presence. -/
noncomputable def CaptureEngine.enhanceImageGen
    (correctFn : MatD → List Point → ℤ → ℤ → CorrectionResult)
    (buf : Option Unit) (width height : ℤ) (frame : MatD)
    (corners : Option (Fin 8 → ℚ)) (options : EnhancementOptions) :
    EnhancementResult :=
  if buf = none ∨ width ≤ 0 ∨ height ≤ 0 then
    { EnhancementResult.init with error_message := "Invalid image data" }
  else
    match corners with
    | none => { EnhancementResult.init with error_message := "Corners not provided" }
    | some cs =>
      if frame.isEmpt = true then
        { EnhancementResult.init with
            error_message := "Failed to create image from buffer" }
      else
        let processed := enhanceProcessed frame cs options
        let afterPersp :=
          if options.apply_perspective_correction = true then
            let corr := correctFn processed (cornerPts cs)
              options.output_width options.output_height
            if corr.success = true then some corr.image else none
          else some processed
        match afterPersp with
        | none =>
          { EnhancementResult.init with
              error_message := "Perspective correction failed" }
        | some m1 =>
          let m2 := if m1.channels = 4 then { m1 with channels := 3 } else m1
          let m3 := applyModeDims options.enhance_mode m2
          ⟨some m3, m3.cols, m3.rows, m3.channels, true, ""⟩

/-- `CaptureEngine::enhanceImage` with the real corrector. -/
noncomputable def CaptureEngine.enhanceImage (buf : Option Unit)
    (width height : ℤ) (frame : MatD) (corners : Option (Fin 8 → ℚ))
    (options : EnhancementOptions) : EnhancementResult :=
  CaptureEngine.enhanceImageGen
    (fun m pts ow oh => PerspectiveCorrector.correct m pts ow oh)
    buf width height frame corners options

/-- C9.  If rectification fails, an enhance call with perspective
correction requested returns `success = false`, the specific non-empty
message "Perspective correction failed", and no output buffer — never a
half-processed buffer.  First conjunct: `PerspectiveCorrector::correct`
itself fails (default result, empty image) on an empty input image or a
corner count other than 4.  Second conjunct: whenever the corrector
reports failure, `enhanceImage` aborts exactly this way. -/
theorem enhance_rectification_failure_aborts :
    (∀ (image : MatD) (corners : List Point) (ow oh : ℤ),
      image.isEmpt = true ∨ corners.length ≠ 4 →
      (PerspectiveCorrector.correct image corners ow oh).success = false ∧
      (PerspectiveCorrector.correct image corners ow oh).image.isEmpt = true) ∧
    (∀ (correctFn : MatD → List Point → ℤ → ℤ → CorrectionResult)
      (width height : ℤ) (frame : MatD) (cs : Fin 8 → ℚ)
      (options : EnhancementOptions),
      ¬width ≤ 0 → ¬height ≤ 0 → frame.isEmpt = false →
      options.apply_perspective_correction = true →
      (correctFn (enhanceProcessed frame cs options) (cornerPts cs)
        options.output_width options.output_height).success = false →
      (CaptureEngine.enhanceImageGen correctFn (some ()) width height frame
        (some cs) options).success = false ∧
      (CaptureEngine.enhanceImageGen correctFn (some ()) width height frame
        (some cs) options).image_data = none ∧
      (CaptureEngine.enhanceImageGen correctFn (some ()) width height frame
        (some cs) options).error_message = "Perspective correction failed" ∧
      (CaptureEngine.enhanceImageGen correctFn (some ()) width height frame
        (some cs) options).error_message ≠ "") := by
  constructor
  · intro image corners ow oh h
    unfold PerspectiveCorrector.correct
    rw [if_pos h]
    exact ⟨rfl, rfl⟩
  · intro correctFn width height frame cs options hw hh hfe hpersp hfail
    have hred : CaptureEngine.enhanceImageGen correctFn (some ()) width height frame
        (some cs) options =
        { EnhancementResult.init with
            error_message := "Perspective correction failed" } := by
      unfold CaptureEngine.enhanceImageGen
      rw [if_neg (by push_neg; exact ⟨by simp, by omega, by omega⟩)]
      dsimp only
      rw [if_neg (by simp [hfe])]
      rw [if_pos hpersp]
      rw [if_neg (by simp [hfail])]
    rw [hred]
    refine ⟨rfl, rfl, rfl, ?_⟩
    decide

/-- C9, witness: a failing corrector instance plus a concrete failing
`correct` input (empty image). -/
theorem enhance_rectification_failure_aborts_witness :
    ((PerspectiveCorrector.correct MatD.emptyMat [] 0 0).success = false ∧
     (PerspectiveCorrector.correct MatD.emptyMat [] 0 0).image.isEmpt = true) ∧
    ((CaptureEngine.enhanceImageGen (fun _ _ _ _ => ⟨MatD.emptyMat, false, 0, 0⟩)
        (some ()) 100 100 ⟨100, 100, 3, false⟩ (some fun _ => 0)
        ⟨false, true, false, false, false, 0.5, EnhanceMode.noneMode, 0, 0⟩).success = false ∧
     (CaptureEngine.enhanceImageGen (fun _ _ _ _ => ⟨MatD.emptyMat, false, 0, 0⟩)
        (some ()) 100 100 ⟨100, 100, 3, false⟩ (some fun _ => 0)
        ⟨false, true, false, false, false, 0.5, EnhanceMode.noneMode, 0, 0⟩).image_data = none ∧
     (CaptureEngine.enhanceImageGen (fun _ _ _ _ => ⟨MatD.emptyMat, false, 0, 0⟩)
        (some ()) 100 100 ⟨100, 100, 3, false⟩ (some fun _ => 0)
        ⟨false, true, false, false, false, 0.5, EnhanceMode.noneMode, 0, 0⟩).error_message =
        "Perspective correction failed" ∧
     (CaptureEngine.enhanceImageGen (fun _ _ _ _ => ⟨MatD.emptyMat, false, 0, 0⟩)
        (some ()) 100 100 ⟨100, 100, 3, false⟩ (some fun _ => 0)
        ⟨false, true, false, false, false, 0.5, EnhanceMode.noneMode, 0, 0⟩).error_message ≠ "") :=
  ⟨enhance_rectification_failure_aborts.1 MatD.emptyMat [] 0 0 (Or.inl rfl),
   enhance_rectification_failure_aborts.2 _ 100 100 ⟨100, 100, 3, false⟩ (fun _ => 0)
     ⟨false, true, false, false, false, 0.5, EnhanceMode.noneMode, 0, 0⟩
     (by norm_num) (by norm_num) rfl rfl rfl⟩

open Classical in
/-- `CaptureEngine::enhanceImageWithGuideFrame`
(capture_engine.cpp:459-587): after input validation, the virtual
trapezoid is synthesised from `last_analysis_`; perspective correction is
forced on exactly when the last analysis found a trapezoidal table and a
plain crop of the guide box is used otherwise; the remaining pipeline
mirrors `enhanceImage` without the auto-enhance step.  The corrector —
here over the real-valued virtual corners — is again a parameter, and the
rotation is reflected in the frame oracle. -/
noncomputable def CaptureEngine.enhanceImageWithGuideFrame
    (correctFn : MatD → List (ℝ × ℝ) → ℤ → ℤ → CorrectionResult)
    (s : EngineState) (buf : Option Unit) (width height : ℤ) (frame : MatD)
    (gl gt gr gb : ℝ) (options : EnhancementOptions) : EnhancementResult :=
  if buf = none ∨ width ≤ 0 ∨ height ≤ 0 then
    { EnhancementResult.init with error_message := "Invalid image data" }
  else if frame.isEmpt = true then
    { EnhancementResult.init with
        error_message := "Failed to create image from buffer" }
  else
    let q := CaptureEngine.calculateVirtualTrapezoid s.last_analysis gl gt gr gb
    let persp : Prop := s.last_analysis.table_found = true ∧ s.last_analysis.is_trapezoid
    let processed := if persp then frame else cropToBBoxQuad frame q
    let afterPersp :=
      if persp then
        let corr := correctFn processed
          [(q.tlX, q.tlY), (q.trX, q.trY), (q.brX, q.brY), (q.blX, q.blY)]
          options.output_width options.output_height
        if corr.success = true then some corr.image else none
      else some processed
    match afterPersp with
    | none =>
      { EnhancementResult.init with
          error_message := "Perspective correction failed" }
    | some m1 =>
      let m2 := if m1.channels = 4 then { m1 with channels := 3 } else m1
      let m3 := applyModeDims options.enhance_mode m2
      ⟨some m3, m3.cols, m3.rows, m3.channels, true, ""⟩

/-- C10.  `CaptureEngine::reset` clears only the stability history,
leaving `last_analysis_` unchanged, so `getLastAnalysis` and a
guide-frame enhance call behave after a reset exactly as before it; and
`analyzeFrame` on invalid input (null buffer or non-positive dimensions)
returns the default result and leaves the state — in particular
`last_analysis_` — unchanged. -/
theorem reset_preserves_last_analysis :
    (∀ s : CaptureEngine.EngineState,
      (CaptureEngine.reset s).last_analysis = s.last_analysis ∧
      (CaptureEngine.reset s).history = []) ∧
    (∀ s : CaptureEngine.EngineState,
      CaptureEngine.getLastAnalysis (CaptureEngine.reset s) =
        CaptureEngine.getLastAnalysis s) ∧
    (∀ (s : CaptureEngine.EngineState)
      (correctFn : MatD → List (ℝ × ℝ) → ℤ → ℤ → CorrectionResult)
      (buf : Option Unit) (width height : ℤ) (frame : MatD)
      (gl gt gr gb : ℝ) (options : EnhancementOptions),
      CaptureEngine.enhanceImageWithGuideFrame correctFn (CaptureEngine.reset s)
        buf width height frame gl gt gr gb options =
      CaptureEngine.enhanceImageWithGuideFrame correctFn s
        buf width height frame gl gt gr gb options) ∧
    (∀ (s : CaptureEngine.EngineState) (buf : Option FrameOracle) (width height : ℤ),
      buf = none ∨ width ≤ 0 ∨ height ≤ 0 →
      CaptureEngine.analyzeFrame s buf width height = (FrameAnalysisResult.init, s)) := by
  refine ⟨fun s => ⟨rfl, rfl⟩, fun s => rfl, fun s _ _ _ _ _ _ _ _ _ _ => rfl, ?_⟩
  intro s buf width height h
  match buf with
  | none => rfl
  | some f =>
    have h2 : width ≤ 0 ∨ height ≤ 0 := by
      rcases h with h | h
      · exact absurd h (by simp)
      · exact h
    unfold CaptureEngine.analyzeFrame
    dsimp only
    rw [if_pos h2]

/-- C10, witness at a concrete non-empty state: reset keeps the cached
analysis, the guide-frame enhance result is unchanged by the reset, and
an invalid analyze call leaves the state alone. -/
theorem reset_preserves_last_analysis_witness :
    ((CaptureEngine.reset ⟨[[(0, 0), (1, 0), (1, 1), (0, 1)]],
        FrameAnalysisResult.init⟩).last_analysis = FrameAnalysisResult.init ∧
     (CaptureEngine.reset ⟨[[(0, 0), (1, 0), (1, 1), (0, 1)]],
        FrameAnalysisResult.init⟩).history = []) ∧
    CaptureEngine.enhanceImageWithGuideFrame (fun _ _ _ _ => ⟨MatD.emptyMat, false, 0, 0⟩)
      (CaptureEngine.reset ⟨[[(0, 0), (1, 0), (1, 1), (0, 1)]], FrameAnalysisResult.init⟩)
      (some ()) 100 100 ⟨100, 100, 3, false⟩ 0 0 10 10
      ⟨false, true, false, false, false, 0.5, EnhanceMode.noneMode, 0, 0⟩ =
    CaptureEngine.enhanceImageWithGuideFrame (fun _ _ _ _ => ⟨MatD.emptyMat, false, 0, 0⟩)
      ⟨[[(0, 0), (1, 0), (1, 1), (0, 1)]], FrameAnalysisResult.init⟩
      (some ()) 100 100 ⟨100, 100, 3, false⟩ 0 0 10 10
      ⟨false, true, false, false, false, 0.5, EnhanceMode.noneMode, 0, 0⟩ ∧
    CaptureEngine.analyzeFrame ⟨[[(0, 0), (1, 0), (1, 1), (0, 1)]],
        FrameAnalysisResult.init⟩ none 100 100 =
      (FrameAnalysisResult.init,
        ⟨[[(0, 0), (1, 0), (1, 1), (0, 1)]], FrameAnalysisResult.init⟩) :=
  ⟨⟨(reset_preserves_last_analysis.1 _).1, (reset_preserves_last_analysis.1 _).2⟩,
   reset_preserves_last_analysis.2.2.1 _ _ _ _ _ _ _ _ _ _ _,
   reset_preserves_last_analysis.2.2.2 _ none 100 100 (Or.inl rfl)⟩

end DocCapture
